import Mathlib

/-!
Verification of the TTH Blocker extension core (multi-source blocklist cache).

The definitions below are a shallow embedding of the extension's main module
(version 1.20.56).  JavaScript `Set` objects become `Finset String`,
JavaScript `Map` objects become association lists with JS `Map` semantics
(`alookup` / `aset` / `adel`), the filesystem's parsed JSON contents become an
association list from filename to parsed data, and the outcomes of I/O
operations (HTTP responses, settings lookups, file stat results) are passed in
explicitly.  Each function keeps the name of the JavaScript function it embeds.
-/

namespace TTHBlock

/-- `isValidTTH` from the source: tests the regular expression
`[A-Z2-7]` repeated exactly 39 times, anchored at both ends, against `id`.
The console warning on failure is a log side effect only; the function reads
and writes no cache state. -/
def isTTHChar (c : Char) : Bool :=
  ('A' ≤ c && c ≤ 'Z') || ('2' ≤ c && c ≤ '7')

def isValidTTH (id : String) : Bool :=
  id.length == 39 && id.data.all isTTHChar

/-- JS string truthiness for optional string fields (`null`/absent and the
empty string are falsy). -/
def jsTruthyO : Option String → Bool
  | some v => v != ""
  | none => false

/-- JS `a || b` on nullable strings: returns `b` when `a` is null or empty. -/
def jsOr : Option String → Option String → Option String
  | some s, b => if s = "" then b else some s
  | none, b => b

/-- Association-list lookup, modeling `Map.prototype.get`
(`undefined`, i.e. `none`, when the key is absent). -/
def alookup {α : Type} : List (String × α) → String → Option α
  | [], _ => none
  | (k, v) :: t, key => if k = key then some v else alookup t key

/-- Association-list update, modeling `Map.prototype.set` (in-place update of
an existing key, append otherwise). -/
def aset {α : Type} : List (String × α) → String → α → List (String × α)
  | [], key, v => [(key, v)]
  | (k, w) :: t, key, v =>
      if k = key then (key, v) :: t else (k, w) :: aset t key v

/-- Association-list removal, modeling `Map.prototype.delete`. -/
def adel {α : Type} : List (String × α) → String → List (String × α)
  | [], _ => []
  | (k, w) :: t, key => if k = key then adel t key else (k, w) :: adel t key

/-- One element of a blocklist file's `tths` array: `{ tth, comment, timestamp }`.
`tth := none` models an entry whose `tth` field is absent or null. -/
structure Entry where
  tth : Option String
  comment : Option String := none
  timestamp : Option String := none
  deriving Repr, DecidableEq

/-- Parsed content of a blocklist JSON file.  `tths := none` models a file
whose `tths` field is missing or not an array (iterating it throws). -/
structure BlocklistData where
  url : Option String := none
  version : Option String := none
  updated_at : Option String := none
  description : Option String := none
  tths : Option (List Entry) := none
  deriving Repr, DecidableEq

/-- The change-detection token `blocklistData.version || blocklistData.updated_at || null`. -/
def versionToken (d : BlocklistData) : Option String :=
  jsOr d.version (jsOr d.updated_at none)

/-- The guard `item.tth && isValidTTH(item.tth)` applied to one entry,
returning the identifier it contributes (if any).  The `t ≠ ""` conjunct is
the JS truthiness test on the `tth` field. -/
def entryValidTTH (e : Entry) : Option String :=
  match e.tth with
  | some t => if t ≠ "" ∧ isValidTTH t = true then some t else none
  | none => none

/-- The set a reload loop builds from a `tths` array: every entry's valid
identifier added to a fresh `Set`. -/
def validTTHSet (es : List Entry) : Finset String :=
  (es.filterMap entryValidTTH).toFinset

/-- The module-level mutable state of the extension: the aggregate set
`blockedTTHSet`, the per-source index `blocklistTTHMap`, the remote-sync
maps `blocklistETags` / `blocklistVersions`, the mtime bookkeeping
`lastUpdateWriteTime`, and the parsed on-disk content of each blocklist file
(`disk`, keyed by filename; a missing key models a file that is absent or
unreadable/unparsable). -/
structure ExtState where
  blockedTTHSet : Finset String := ∅
  blocklistTTHMap : List (String × Finset String) := []
  blocklistETags : List (String × String) := []
  blocklistVersions : List (String × Option String) := []
  lastUpdateWriteTime : List (String × Nat) := []
  disk : List (String × BlocklistData) := []
  deriving DecidableEq

/-- Read-only environment of one reconciliation call: the `blocklistFiles`
registry (file names), the result of `fs.statSync(...).mtimeMs` per file, the
enabled flag per file (`settings.getValue` on the file's setting key, with the
catch-branch default of `true` folded in), and the `valid` outcome of
`validateBlocklistFile` per file (supplied as an input because that function's
file-repair side effects fall outside the reconciliation claims; for a file
that parses it is a read-only structural check). -/
structure Env where
  files : List String
  mtime : String → Nat
  enabled : String → Bool
  valid : String → Bool

/-- The unload half of `updateSingleBlocklist` (lines deleting the old TTHs):
every identifier previously attributed to `filename` is deleted from
`blockedTTHSet`, and the per-source map entry is dropped. -/
def unloadOne (st : ExtState) (filename : String) : ExtState :=
  let oldTTHs := (alookup st.blocklistTTHMap filename).getD ∅
  { st with
    blockedTTHSet := st.blockedTTHSet \ oldTTHs,
    blocklistTTHMap := adel st.blocklistTTHMap filename }

/-- The reload half of `updateSingleBlocklist`: if the source is enabled and
structurally valid, re-read its file, merge its valid identifiers into the
aggregate set and a fresh per-source set, and record its version token.
Returns `true` only when a reload actually happened. -/
def reloadOne (env : Env) (st : ExtState) (filename : String) : Bool × ExtState :=
  if env.enabled filename then
    if env.valid filename then
      match alookup st.disk filename with
      | some d =>
          match d.tths with
          | some entries =>
              let tthSet := validTTHSet entries
              (true,
                { st with
                  blockedTTHSet := st.blockedTTHSet ∪ tthSet,
                  blocklistTTHMap := aset st.blocklistTTHMap filename tthSet,
                  blocklistVersions :=
                    aset st.blocklistVersions filename (versionToken d) })
          | none => (false, st)
      | none => (false, st)
    else (false, st)
  else (false, st)

/-- `lastUpdateWriteTime.set(filename, stats.mtimeMs)`. -/
def touchLwt (st : ExtState) (filename : String) (mt : Nat) : ExtState :=
  { st with lastUpdateWriteTime := aset st.lastUpdateWriteTime filename mt }

/-- `updateSingleBlocklist` from the source: looks the source up in the
registry, suppresses the reload when the file's modification time has not
advanced past `lastUpdateWriteTime`, records the new modification time, then
unloads the old per-source set and conditionally reloads the file. -/
def updateSingleBlocklist (env : Env) (st : ExtState) (filename : String) :
    Bool × ExtState :=
  if filename ∈ env.files then
    if alookup st.lastUpdateWriteTime filename = some (env.mtime filename) then
      (false, st)
    else
      reloadOne env
        (unloadOne (touchLwt st filename (env.mtime filename)) filename)
        filename
  else (false, st)

/-- The union of the per-source sets of the currently-enabled sources, as
recorded in the per-source index. -/
def enabledUnion (st : ExtState) (enabled : String → Bool) : Finset String :=
  st.blocklistTTHMap.foldl
    (fun acc p => if enabled p.1 then acc ∪ p.2 else acc) ∅

def c5TTH : String := "AAAAAAAAAAAAAAAAAAAAAAAAAAAAAAAAAAAAAAA"

def c5E : List Entry :=
  [{ tth := some c5TTH }, { tth := some "SHORT" }, { tth := none }]

def c5Data : BlocklistData := { tths := some c5E }

def c5Env : Env :=
  { files := ["w.json"], mtime := fun _ => 5,
    enabled := fun _ => true, valid := fun _ => true }

def c5St : ExtState := { disk := [("w.json", c5Data)] }

def c1TTH : String := "AAAAAAAAAAAAAAAAAAAAAAAAAAAAAAAAAAAAAAA"

def c1Data : BlocklistData :=
  { version := some "1", tths := some [{ tth := some c1TTH }] }

/-- Fresh module state with two source files on disk, both containing the
same (shared) identifier `c1TTH`. -/
def c1St0 : ExtState := { disk := [("a.json", c1Data), ("b.json", c1Data)] }

/-- Both sources registered, enabled and valid; the directory watcher loads
each newly detected file through `updateSingleBlocklist`. -/
def c1Env1 : Env :=
  { files := ["a.json", "b.json"], mtime := fun _ => 1,
    enabled := fun _ => true, valid := fun _ => true }

def c1St1 : ExtState := (updateSingleBlocklist c1Env1 c1St0 "a.json").2

def c1St2 : ExtState := (updateSingleBlocklist c1Env1 c1St1 "b.json").2

/-- The user then disables `a.json` and its file is touched (modification
time advances), so the watcher reconciles `a.json`. -/
def c1Env2 : Env :=
  { c1Env1 with
    enabled := fun f => !(f == "a.json"),
    mtime := fun f => if f == "a.json" then 2 else 1 }

def c1St3 : ExtState := (updateSingleBlocklist c1Env2 c1St2 "a.json").2

/-- Outcome of the queue admission hook: `accept()` or
`reject(errorId, message)`. -/
inductive HookResult where
  | accept : HookResult
  | reject (errorId : String) (message : String) : HookResult
  deriving Repr, DecidableEq

/-- `data.file_data` of a queued bundle file: the display name and the TTH
field (`none` models an absent field). -/
structure FileData where
  name : Option String := none
  tth : Option String := none
  deriving Repr, DecidableEq

/-- The body of `queueBundleFileAddHook` (the code inside its `try` block),
in an exception monad.  `settingsOk` is the outcome of the
`settings && typeof settings.getValue === 'function'` check; `postThrows`
models the awaited `socket.post('events', ...)` notification on the blocked
path rejecting, which is the body's fallible operation (everything else it
does is total).  The `t ≠ ""` conjunct is the JS truthiness test
`fileData.tth && ...`. -/
def queueHookBody (settingsOk : Bool) (fd : FileData) (blocked : Finset String)
    (postThrows : Bool) : Except String HookResult :=
  if !settingsOk then .ok .accept
  else
    match fd.tth with
    | some t =>
        if t ≠ "" ∧ t ∈ blocked then
          if postThrows then .error "socket.post failed"
          else .ok (.reject "blocked_tth" "Download skipped: TTH is blocked by extension")
        else .ok .accept
    | none => .ok .accept

/-- `queueBundleFileAddHook` from the source: the `try`/`catch` wrapper whose
`catch` branch calls `accept()`. -/
def queueBundleFileAddHook (settingsOk : Bool) (fd : FileData)
    (blocked : Finset String) (postThrows : Bool) : HookResult :=
  match queueHookBody settingsOk fd blocked postThrows with
  | .ok r => r
  | .error _ => .accept

def c2TTH : String := "BBBBBBBBBBBBBBBBBBBBBBBBBBBBBBBBBBBBBBB"

def c9TTH : String := "CCCCCCCCCCCCCCCCCCCCCCCCCCCCCCCCCCCCCCC"

/-- Does the character list `s` start with `pat`? -/
def hasPre : List Char → List Char → Bool
  | [], _ => true
  | _ :: _, [] => false
  | p :: ps, c :: cs => p == c && hasPre ps cs

/-- Does the character list `s` contain `pat` as a contiguous run? -/
def hasSub : List Char → List Char → Bool
  | pat, [] => pat.isEmpty
  | pat, c :: cs => hasPre pat (c :: cs) || hasSub pat cs

/-- Substring containment, modeling `String.prototype.includes`. -/
def containsSub (s pat : String) : Bool :=
  hasSub pat.data s.data

/-- Leading-substring test, modeling a scheme check on the URL text. -/
def beginsWith (s pat : String) : Bool :=
  hasPre pat.data s.data

/-- `isValidBlocklistURL` from the source.  The scheme tests stand in for the
`new URL(...)` protocol parse, and the substring tests for the
hostname/pathname `includes` checks (the needles the code uses cannot occur
in an `http(s)` scheme or authority delimiter, so the approximation agrees on
every parseable URL used in the claims). -/
def isValidBlocklistURL (url : String) : Bool :=
  url == "Internal" ||
    ((beginsWith url "https://" || beginsWith url "http://") &&
      (containsSub url "raw.githubusercontent.com" || containsSub url "/raw/"))

/-- One registry element passed to `fetchAndUpdateBlocklist`: its filename
(the map key, also standing for its path) and its `url` field. -/
structure Blocklist where
  file : String
  url : Option String := none
  deriving Repr, DecidableEq

/-- `new URL(blocklist.url)` on a null url throws, making the check false. -/
def urlOk : Option String → Bool
  | some u => isValidBlocklistURL u
  | none => false

/-- Parse outcome of a fetched response body: `JSON.parse` throwing, or the
parsed data (whose `tths` field may still fail the array check). -/
inductive BodyParse where
  | notJson : BodyParse
  | data (d : BlocklistData) : BodyParse
  deriving Repr, DecidableEq

/-- One HTTP response as the synchronizer observes it. -/
structure HttpResponse where
  status : Nat
  contentType : Option String := none
  etag : Option String := none
  body : BodyParse := .notJson
  deriving Repr, DecidableEq

/-- `response.ok`: status in the inclusive range 200–299. -/
def respOk (r : HttpResponse) : Bool :=
  decide (200 ≤ r.status) && decide (r.status < 300)

/-- The content-type gate: `(headers.get('content-type') || '')` must contain
`application/json` or `text/plain`. -/
def contentTypeOk (r : HttpResponse) : Bool :=
  containsSub (r.contentType.getD "") "application/json" ||
    containsSub (r.contentType.getD "") "text/plain"

/-- Result of one loop iteration of `fetchAndUpdateBlocklist`: an early
`return` with a changed flag and the (possibly updated) state, or a thrown
error caught by the surrounding `catch`.  Every `throw` in the source happens
before any state mutation, so a thrown attempt leaves the state unchanged. -/
inductive AttemptOutcome where
  | done (changed : Bool) (st : ExtState) : AttemptOutcome
  | thrown (msg : String) : AttemptOutcome

/-- The `try` block of one fetch attempt: 304 short-circuit, `response.ok`
check, content-type check, JSON parse, `tths` array check, version-token
comparison, and — only on an actual version change — the writes: store the
entity tag and version token, record `Date.now()` as the file's processed
write time, and rewrite the mirror file. -/
def fetchAttempt (bl : Blocklist) (now : Nat) (r : HttpResponse)
    (st : ExtState) : AttemptOutcome :=
  if r.status = 304 then .done false st
  else if respOk r then
    if contentTypeOk r then
      match r.body with
      | .notJson => .thrown "Invalid JSON"
      | .data d =>
          match d.tths with
          | none => .thrown "Invalid JSON format: tths not an array"
          | some _ =>
              let newVersion := versionToken d
              if jsTruthyO newVersion = true ∧
                  alookup st.blocklistVersions bl.file = some newVersion then
                .done false st
              else
                .done true
                  { st with
                    blocklistETags := aset st.blocklistETags bl.file (r.etag.getD ""),
                    blocklistVersions := aset st.blocklistVersions bl.file newVersion,
                    lastUpdateWriteTime := aset st.lastUpdateWriteTime bl.file now,
                    disk := aset st.disk bl.file d }
    else .thrown "Invalid content type"
  else .thrown ("HTTP " ++ toString r.status)

/-- The retry loop of `fetchAndUpdateBlocklist`: one response per attempt.  A
thrown attempt retries while attempts remain; the last attempt's failure
posts one error event (counted by the third component) and returns `false`.
An empty list models a zero-retry budget (the loop body never runs). -/
def fetchLoop (bl : Blocklist) (now : Nat) (st : ExtState) :
    List HttpResponse → Bool × ExtState × Nat
  | [] => (false, st, 0)
  | [r] =>
      match fetchAttempt bl now r st with
      | .done changed st2 => (changed, st2, 0)
      | .thrown _ => (false, st, 1)
  | r :: r2 :: rest =>
      match fetchAttempt bl now r st with
      | .done changed st2 => (changed, st2, 0)
      | .thrown _ => fetchLoop bl now st (r2 :: rest)

/-- `fetchAndUpdateBlocklist` from the source: skip the internal source,
report (one error event) and skip a source with an unacceptable URL,
otherwise run the retry loop.  The third component counts error events posted
to the notification collaborator. -/
def fetchAndUpdateBlocklist (bl : Blocklist) (responses : List HttpResponse)
    (now : Nat) (st : ExtState) : Bool × ExtState × Nat :=
  if bl.url = some "Internal" then (false, st, 0)
  else if urlOk bl.url = true then fetchLoop bl now st responses
  else (false, st, 1)

/-- A response on which the attempt body throws (for every state): not a 304,
and failing the status, content-type, JSON or `tths`-array check. -/
def attemptThrows (r : HttpResponse) : Bool :=
  !(r.status == 304) &&
    (!(respOk r) || !(contentTypeOk r) ||
      (match r.body with
       | .notJson => true
       | .data d => d.tths.isNone))

def c7Bl : Blocklist :=
  { file := "r.json", url := some "https://raw.githubusercontent.com/u/p/r.json" }

def c7Resp : HttpResponse := { status := 304 }

def c7St : ExtState :=
  { blocklistETags := [("r.json", "etag-1")],
    blocklistVersions := [("r.json", some "1.0.0")] }

def c6Bl : Blocklist :=
  { file := "r.json", url := some "https://raw.githubusercontent.com/u/p/r.json" }

def c6Data : BlocklistData :=
  { version := some "2.0", updated_at := some "2025-08-27T14:49:00Z",
    tths := some [] }

def c6Resp : HttpResponse :=
  { status := 200, contentType := some "application/json; charset=utf-8",
    etag := some "etag-2", body := .data c6Data }

def c6St : ExtState :=
  { blocklistETags := [("r.json", "etag-1")],
    blocklistVersions := [("r.json", some "2.0")] }

def c8Bl : Blocklist :=
  { file := "r.json", url := some "https://raw.githubusercontent.com/u/p/r.json" }

def c8Resp : HttpResponse := { status := 500 }

def c8St : ExtState :=
  { blockedTTHSet := {"DDDDDDDDDDDDDDDDDDDDDDDDDDDDDDDDDDDDDDD"},
    blocklistTTHMap := [("r.json", {"DDDDDDDDDDDDDDDDDDDDDDDDDDDDDDDDDDDDDDD"})],
    blocklistETags := [("r.json", "etag-1")],
    blocklistVersions := [("r.json", some "1.0.0")] }

/-- `path.basename(INTERNAL_BLOCKLIST_FILE)`: the key of the writable source. -/
def internalBlocklistName : String := "internal_blocklist.json"

/-- The entry object pushed for a newly accepted identifier:
`{ tth, comment: '', timestamp: new Date().toISOString() }`. -/
def newEntryFor (t ts : String) : Entry :=
  { tth := some t, comment := some "", timestamp := some ts }

/-- The in-memory effect of accepting one identifier in the `addToBlocklist`
loop: add it to the aggregate set and to the writable source's per-source
set. -/
def addInsert (st : ExtState) (t : String) : ExtState :=
  { st with
    blockedTTHSet := insert t st.blockedTTHSet,
    blocklistTTHMap :=
      aset st.blocklistTTHMap internalBlocklistName
        (insert t ((alookup st.blocklistTTHMap internalBlocklistName).getD ∅)) }

/-- The `for (const id of selectedIds)` loop of `addToBlocklist`.  Each input
is the identifier resolved for one selected id (`none` when resolution
returned null).  An identifier is accepted iff it is truthy and not already
in the global aggregate set `blockedTTHSet`; accepted identifiers are folded
into the state and collected (in order) as `addedTTHs`. -/
def addLoop : ExtState → List (Option String) → ExtState × List String
  | st, [] => (st, [])
  | st, none :: rest => addLoop st rest
  | st, some t :: rest =>
      if t ≠ "" ∧ t ∉ st.blockedTTHSet then
        ((addLoop (addInsert st t) rest).1, t :: (addLoop (addInsert st t) rest).2)
      else addLoop st rest

/-- The default structure `addToBlocklist` starts from when the writable
source's file is absent or empty. -/
def defaultInternalData (ts : String) : BlocklistData :=
  { url := some "Internal", version := some "Internal", updated_at := some ts,
    description := some "Internal", tths := some [] }

/-- The blocklist object `addToBlocklist` starts from before appending: the
writable source's parsed file with a non-array `tths` reset to `[]`, or the
default structure when the file is absent or empty. -/
def internalBaseData (st : ExtState) (ts : String) : BlocklistData :=
  match alookup st.disk internalBlocklistName with
  | none => defaultInternalData ts
  | some d => { d with tths := some (d.tths.getD []) }

/-- The blocklist object `addToBlocklist` writes back: the base object with
the accepted identifiers' entries pushed and `updated_at` restamped. -/
def internalNewData (st : ExtState) (ts : String) (added : List String) :
    BlocklistData :=
  { internalBaseData st ts with
    tths := some ((internalBaseData st ts).tths.getD []
      ++ added.map (fun t => newEntryFor t ts)),
    updated_at := some ts }

/-- `addToBlocklist` from the source: bail out on an invalid settings object
or a disabled internal blocklist; run the resolution loop; when at least one
identifier was accepted, read the writable source's file (resetting a
non-array `tths` to `[]`, starting from the default when absent), append the
new entries, stamp `updated_at`, write the file back and record the write
time.  Returns the new state and the list of appended identifiers. -/
def addToBlocklist (settingsOk internalEnabled : Bool)
    (resolved : List (Option String)) (ts : String) (now : Nat)
    (st : ExtState) : ExtState × List String :=
  if settingsOk = false then (st, [])
  else if internalEnabled = false then (st, [])
  else
    let res := addLoop st resolved
    if res.2 = [] then (res.1, res.2)
    else
      ({ res.1 with
          disk := aset res.1.disk internalBlocklistName
            (internalNewData res.1 ts res.2),
          lastUpdateWriteTime :=
            aset res.1.lastUpdateWriteTime internalBlocklistName now },
        res.2)

/-- The entry list currently stored in the writable source's file. -/
def internalDiskEntries (st : ExtState) : List Entry :=
  match alookup st.disk internalBlocklistName with
  | some d => d.tths.getD []
  | none => []

def c10TTH : String := "EEEEEEEEEEEEEEEEEEEEEEEEEEEEEEEEEEEEEEE"

/-- A state in which `c10TTH` is contributed by the enabled read-only source
`b.json` while the writable source's file does not contain it. -/
def c10St : ExtState :=
  { blockedTTHSet := {c10TTH},
    blocklistTTHMap := [("b.json", {c10TTH})],
    disk := [("internal_blocklist.json",
      { url := some "Internal", version := some "Internal", tths := some [] })] }

theorem alookup_aset_self {α : Type} (l : List (String × α)) (k : String) (v : α) :
    alookup (aset l k v) k = some v := by
  induction l with
  | nil => simp [aset, alookup]
  | cons hd tl ih =>
      obtain ⟨k', w⟩ := hd
      by_cases h : k' = k
      · simp [aset, alookup, h]
      · simp [aset, alookup, h, ih]

theorem alookup_aset_ne {α : Type} (l : List (String × α)) (k k' : String) (v : α)
    (h : k' ≠ k) : alookup (aset l k v) k' = alookup l k' := by
  have hk : ¬ k = k' := fun hk => h hk.symm
  induction l with
  | nil => simp [aset, alookup, hk]
  | cons hd tl ih =>
      obtain ⟨k₀, w⟩ := hd
      by_cases h0 : k₀ = k
      · subst h0
        simp [aset, alookup, hk]
      · simp [aset, alookup, h0, ih]

theorem isValidTTH_empty : isValidTTH "" = false := rfl

theorem entryValidTTH_eq_some (e : Entry) (t : String) :
    entryValidTTH e = some t ↔ e.tth = some t ∧ isValidTTH t = true := by
  cases he : e.tth with
  | none => simp [entryValidTTH, he]
  | some s =>
      by_cases hv : s ≠ "" ∧ isValidTTH s = true
      · simp only [entryValidTTH, he, if_pos hv, Option.some.injEq]
        constructor
        · rintro rfl
          exact ⟨rfl, hv.2⟩
        · rintro ⟨rfl, _⟩
          rfl
      · simp only [entryValidTTH, he, if_neg hv]
        constructor
        · intro h
          exact absurd h (by simp)
        · rintro ⟨hs, h2⟩
          have hst : s = t := Option.some.inj hs
          subst hst
          exact absurd ⟨fun h0 => by rw [h0] at h2; exact absurd h2 (by decide), h2⟩ hv

theorem validTTHSet_mem (E : List Entry) (t : String) :
    t ∈ validTTHSet E ↔ ∃ e ∈ E, e.tth = some t ∧ isValidTTH t = true := by
  simp [validTTHSet, List.mem_filterMap, entryValidTTH_eq_some]

theorem unloadOne_lastUpdateWriteTime (st : ExtState) (f : String) :
    (unloadOne st f).lastUpdateWriteTime = st.lastUpdateWriteTime := rfl

theorem unloadOne_disk (st : ExtState) (f : String) :
    (unloadOne st f).disk = st.disk := rfl

theorem touchLwt_disk (st : ExtState) (f : String) (mt : Nat) :
    (touchLwt st f mt).disk = st.disk := rfl

theorem touchLwt_lastUpdateWriteTime (st : ExtState) (f : String) (mt : Nat) :
    (touchLwt st f mt).lastUpdateWriteTime = aset st.lastUpdateWriteTime f mt := rfl

theorem reloadOne_lastUpdateWriteTime (env : Env) (st : ExtState) (f : String) :
    (reloadOne env st f).2.lastUpdateWriteTime = st.lastUpdateWriteTime := by
  unfold reloadOne
  repeat' split
  all_goals rfl

/-- The branch of `updateSingleBlocklist` taken when the source is registered
and its modification time has advanced. -/
theorem updateSingleBlocklist_run (env : Env) (st : ExtState) (f : String)
    (hf : f ∈ env.files)
    (hm : alookup st.lastUpdateWriteTime f ≠ some (env.mtime f)) :
    updateSingleBlocklist env st f
      = reloadOne env (unloadOne (touchLwt st f (env.mtime f)) f) f := by
  unfold updateSingleBlocklist
  rw [if_pos hf, if_neg hm]

/-- The change-suppression branch: an unchanged modification time is a no-op. -/
theorem updateSingleBlocklist_skip (env : Env) (st : ExtState) (f : String)
    (hf : f ∈ env.files)
    (hm : alookup st.lastUpdateWriteTime f = some (env.mtime f)) :
    updateSingleBlocklist env st f = (false, st) := by
  unfold updateSingleBlocklist
  rw [if_pos hf, if_pos hm]

/-- The not-in-registry branch: an unknown source name is a no-op. -/
theorem updateSingleBlocklist_notFound (env : Env) (st : ExtState) (f : String)
    (hf : f ∉ env.files) :
    updateSingleBlocklist env st f = (false, st) := by
  unfold updateSingleBlocklist
  rw [if_neg hf]

/-- Claim C3: the identifier validator `isValidTTH` accepts a string exactly
when it has length 39 and every character is an uppercase letter `A`–`Z` or a
digit `2`–`7`.  As embedded, `isValidTTH` is a pure function of its argument:
it reads and writes no cache state. -/
theorem C3_isValidTTH_spec (s : String) :
    isValidTTH s = true ↔
      (s.length = 39 ∧
        ∀ c ∈ s.data, ('A' ≤ c ∧ c ≤ 'Z') ∨ ('2' ≤ c ∧ c ≤ '7')) := by
  unfold isValidTTH isTTHChar
  simp [List.all_eq_true, Bool.and_eq_true, Bool.or_eq_true, decide_eq_true_eq,
    beq_iff_eq]

/-- Claim C4: with the filesystem unchanged (same registry, same modification
times, same contents), running `updateSingleBlocklist` twice in succession on
any state makes the second call return `changed = false` and leave the whole
state — in particular the aggregate set and the per-source index — exactly as
the first call left it.  The suppression comes from the `lastUpdateWriteTime`
bookkeeping recorded by the first call. -/
theorem C4_updateSingleBlocklist_idempotent (env : Env) (st : ExtState) (f : String) :
    updateSingleBlocklist env (updateSingleBlocklist env st f).2 f
      = (false, (updateSingleBlocklist env st f).2) := by
  by_cases hf : f ∈ env.files
  · by_cases hm : alookup st.lastUpdateWriteTime f = some (env.mtime f)
    · rw [updateSingleBlocklist_skip env st f hf hm]
      exact updateSingleBlocklist_skip env st f hf hm
    · have hl : alookup (updateSingleBlocklist env st f).2.lastUpdateWriteTime f
          = some (env.mtime f) := by
        rw [updateSingleBlocklist_run env st f hf hm,
          reloadOne_lastUpdateWriteTime, unloadOne_lastUpdateWriteTime,
          touchLwt_lastUpdateWriteTime]
        exact alookup_aset_self st.lastUpdateWriteTime f (env.mtime f)
      exact updateSingleBlocklist_skip env _ f hf hl
  · rw [updateSingleBlocklist_notFound env st f hf]
    exact updateSingleBlocklist_notFound env st f hf

/-- Claim C5: reloading an enabled, structurally valid source whose file holds
the entry list `E` (and whose modification time has advanced, as a fresh write
makes it do) reports a reload and installs, as that source's per-source set,
exactly the set of valid identifiers occurring in `E`: an identifier is in the
installed set iff some entry of `E` carries it and it passes `isValidTTH`, so
every invalid identifier is dropped and every valid one is kept. -/
theorem C5_roundTrip (env : Env) (st : ExtState) (f : String) (d : BlocklistData)
    (E : List Entry)
    (hf : f ∈ env.files)
    (hmt : alookup st.lastUpdateWriteTime f ≠ some (env.mtime f))
    (hen : env.enabled f = true)
    (hva : env.valid f = true)
    (hdisk : alookup st.disk f = some d)
    (hE : d.tths = some E) :
    (updateSingleBlocklist env st f).1 = true ∧
    alookup (updateSingleBlocklist env st f).2.blocklistTTHMap f
      = some (validTTHSet E) ∧
    ∀ t : String, t ∈ validTTHSet E ↔
      ∃ e ∈ E, e.tth = some t ∧ isValidTTH t = true := by
  refine ⟨?_, ?_, fun t => validTTHSet_mem E t⟩ <;>
    rw [updateSingleBlocklist_run env st f hf hmt] <;>
    simp [reloadOne, unloadOne, touchLwt, hen, hva, hdisk, hE, alookup_aset_self]

/-- Concrete witness for claim C5: a file with one valid 39-character
identifier, one malformed identifier and one entry without a `tth` field
reloads to the singleton per-source set. -/
theorem C5_roundTrip_witness :
    ("w.json" ∈ c5Env.files ∧
      alookup c5St.lastUpdateWriteTime "w.json" ≠ some (c5Env.mtime "w.json") ∧
      c5Env.enabled "w.json" = true ∧ c5Env.valid "w.json" = true ∧
      alookup c5St.disk "w.json" = some c5Data ∧ c5Data.tths = some c5E) ∧
    ((updateSingleBlocklist c5Env c5St "w.json").1 = true ∧
      alookup (updateSingleBlocklist c5Env c5St "w.json").2.blocklistTTHMap "w.json"
        = some (validTTHSet c5E) ∧
      ∀ t : String, t ∈ validTTHSet c5E ↔
        ∃ e ∈ c5E, e.tth = some t ∧ isValidTTH t = true) :=
  ⟨⟨by decide, by decide, rfl, rfl, by decide, rfl⟩,
    C5_roundTrip c5Env c5St "w.json" c5Data c5E (by decide) (by decide) rfl rfl
      (by decide) rfl⟩

/-- Claim C2: for a queued file with a present TTH field, under normal
operation (valid settings object, notification channel not failing — in the
shipped module `settings` is always an object with a `getValue` function, so
the invalid-settings branch is unreachable) the hook rejects exactly when the
TTH is in the aggregate blocked set, and accepts otherwise.  The hypothesis
`"" ∉ blocked` holds of every reachable aggregate set, since both ingestion
paths guard insertion behind JS truthiness of the identifier. -/
theorem C2_queueBundleFileAddHook_deny_iff (t : String) (name : Option String)
    (blocked : Finset String) (hempty : "" ∉ blocked) :
    queueBundleFileAddHook true { name := name, tth := some t } blocked false
        = .reject "blocked_tth" "Download skipped: TTH is blocked by extension"
      ↔ t ∈ blocked := by
  by_cases hb : t ∈ blocked
  · have ht : t ≠ "" := fun h => hempty (h ▸ hb)
    simp [queueBundleFileAddHook, queueHookBody, ht, hb]
  · by_cases ht : t = ""
    · simp [queueBundleFileAddHook, queueHookBody, ht, hempty]
    · simp [queueBundleFileAddHook, queueHookBody, ht, hb]

/-- Concrete witness for claim C2: a blocked 39-B TTH is rejected. -/
theorem C2_queueBundleFileAddHook_witness :
    ("" ∉ ({c2TTH} : Finset String)) ∧
    (queueBundleFileAddHook true { name := some "f.bin", tth := some c2TTH }
        ({c2TTH} : Finset String) false
        = .reject "blocked_tth" "Download skipped: TTH is blocked by extension"
      ↔ c2TTH ∈ ({c2TTH} : Finset String)) :=
  ⟨by decide,
    C2_queueBundleFileAddHook_deny_iff c2TTH (some "f.bin") {c2TTH} (by decide)⟩

/-- Claim C9: whenever the hook body raises an exception, the `catch` wrapper
accepts the file instead of rejecting or propagating; and an invalid or
unavailable settings object likewise leads to an accept (the code handles it
with an explicit check before any fallible operation, not by throwing). -/
theorem C9_queueBundleFileAddHook_failOpen (settingsOk : Bool) (fd : FileData)
    (blocked : Finset String) (postThrows : Bool) :
    (∀ e : String, queueHookBody settingsOk fd blocked postThrows = .error e →
      queueBundleFileAddHook settingsOk fd blocked postThrows = .accept) ∧
    (settingsOk = false →
      queueBundleFileAddHook settingsOk fd blocked postThrows = .accept) := by
  constructor
  · intro e he
    unfold queueBundleFileAddHook
    rw [he]
  · rintro rfl
    rfl

/-- Concrete witness for claim C9: with a blocked TTH and a failing
notification post, the body raises and the hook still accepts; with an
invalid settings object the hook accepts as well. -/
theorem C9_queueBundleFileAddHook_witness :
    queueHookBody true { tth := some c9TTH } ({c9TTH} : Finset String) true
      = .error "socket.post failed" ∧
    queueBundleFileAddHook true { tth := some c9TTH } ({c9TTH} : Finset String) true
      = .accept ∧
    queueBundleFileAddHook false { tth := some c9TTH } ({c9TTH} : Finset String) false
      = .accept :=
  ⟨by rfl,
    (C9_queueBundleFileAddHook_failOpen true { tth := some c9TTH } {c9TTH} true).1
      "socket.post failed" (by rfl),
    (C9_queueBundleFileAddHook_failOpen false { tth := some c9TTH } {c9TTH} false).2
      rfl⟩

theorem fetchAttempt_thrown_of_attemptThrows (bl : Blocklist) (now : Nat)
    (r : HttpResponse) (st : ExtState) (h : attemptThrows r = true) :
    ∃ m, fetchAttempt bl now r st = .thrown m := by
  unfold attemptThrows at h
  rw [Bool.and_eq_true] at h
  obtain ⟨h304, hrest⟩ := h
  have h304' : ¬ (r.status = 304) := by
    intro he
    rw [he] at h304
    simp at h304
  unfold fetchAttempt
  rw [if_neg h304']
  by_cases hok : respOk r = true
  · by_cases hct : contentTypeOk r = true
    · have hbad : (match r.body with
          | .notJson => true
          | .data d => d.tths.isNone) = true := by
        have hrest' : respOk r = false ∨ contentTypeOk r = false ∨
            (match r.body with
              | .notJson => true
              | .data d => d.tths.isNone) = true := by
          simpa [or_assoc] using hrest
        rcases hrest' with h1 | h2 | h3
        · rw [h1] at hok
          exact absurd hok (by simp)
        · rw [h2] at hct
          exact absurd hct (by simp)
        · exact h3
      rw [if_pos hok, if_pos hct]
      cases hb : r.body with
      | notJson => exact ⟨"Invalid JSON", by simp only [hb]⟩
      | data d =>
          simp only [hb] at hbad
          have hN : d.tths = none := Option.isNone_iff_eq_none.mp hbad
          exact ⟨"Invalid JSON format: tths not an array", by simp only [hb, hN]⟩
    · rw [if_pos hok, if_neg hct]
      exact ⟨"Invalid content type", rfl⟩
  · rw [if_neg hok]
    exact ⟨"HTTP " ++ toString r.status, rfl⟩

theorem fetchLoop_cons_done (bl : Blocklist) (now : Nat) (st : ExtState)
    (r : HttpResponse) (rest : List HttpResponse) (changed : Bool)
    (st2 : ExtState) (h : fetchAttempt bl now r st = .done changed st2) :
    fetchLoop bl now st (r :: rest) = (changed, st2, 0) := by
  cases rest with
  | nil =>
      unfold fetchLoop
      rw [h]
  | cons r2 t =>
      unfold fetchLoop
      rw [h]

theorem urlOk_of_valid (bl : Blocklist) (u : String) (hu : bl.url = some u)
    (huv : isValidBlocklistURL u = true) : urlOk bl.url = true := by
  rw [hu]
  simpa [urlOk] using huv

theorem url_ne_internal (bl : Blocklist) (u : String) (hu : bl.url = some u)
    (hui : u ≠ "Internal") : bl.url ≠ some "Internal" := by
  rw [hu]
  intro hc
  exact hui (Option.some.inj hc)

/-- Claim C7: a 304 Not Modified response makes `fetchAndUpdateBlocklist`
return `false` immediately: no retry happens (the remaining attempt budget
`rest` is irrelevant), no error event is posted, and the state — stored
entity tag, stored version token, file content, aggregate set and per-source
index — is returned exactly as it was. -/
theorem C7_notModified_noop (bl : Blocklist) (u : String) (r : HttpResponse)
    (rest : List HttpResponse) (now : Nat) (st : ExtState)
    (hu : bl.url = some u) (hui : u ≠ "Internal")
    (huv : isValidBlocklistURL u = true) (h304 : r.status = 304) :
    fetchAndUpdateBlocklist bl (r :: rest) now st = (false, st, 0) := by
  unfold fetchAndUpdateBlocklist
  rw [if_neg (url_ne_internal bl u hu hui), if_pos (urlOk_of_valid bl u hu huv)]
  refine fetchLoop_cons_done bl now st r rest false st ?_
  unfold fetchAttempt
  rw [if_pos h304]

/-- Concrete witness for claim C7. -/
theorem C7_notModified_witness :
    (c7Bl.url = some "https://raw.githubusercontent.com/u/p/r.json" ∧
      "https://raw.githubusercontent.com/u/p/r.json" ≠ "Internal" ∧
      isValidBlocklistURL "https://raw.githubusercontent.com/u/p/r.json" = true ∧
      c7Resp.status = 304) ∧
    fetchAndUpdateBlocklist c7Bl [c7Resp] 99 c7St = (false, c7St, 0) :=
  ⟨⟨rfl, by decide, by decide, rfl⟩,
    C7_notModified_noop c7Bl "https://raw.githubusercontent.com/u/p/r.json"
      c7Resp [] 99 c7St rfl (by decide) (by decide) rfl⟩

/-- Claim C6: an HTTP 200 fetch whose parsed body carries the same (non-empty)
version token as the one stored for the source is a no-op: no file write, no
stored version or entity-tag update, no change to per-source or aggregate
sets, no error event — regardless of how the raw response bytes compare to
the file's content (no hypothesis relates `d` to the state's disk entry). -/
theorem C6_versionUnchanged_noop (bl : Blocklist) (u : String) (r : HttpResponse)
    (rest : List HttpResponse) (now : Nat) (st : ExtState) (d : BlocklistData)
    (E : List Entry) (v : String)
    (hu : bl.url = some u) (hui : u ≠ "Internal")
    (huv : isValidBlocklistURL u = true)
    (hst : r.status = 200) (hct : contentTypeOk r = true)
    (hbody : r.body = .data d) (hE : d.tths = some E)
    (hv : versionToken d = some v) (hvt : v ≠ "")
    (hold : alookup st.blocklistVersions bl.file = some (some v)) :
    fetchAndUpdateBlocklist bl (r :: rest) now st = (false, st, 0) := by
  unfold fetchAndUpdateBlocklist
  rw [if_neg (url_ne_internal bl u hu hui), if_pos (urlOk_of_valid bl u hu huv)]
  refine fetchLoop_cons_done bl now st r rest false st ?_
  unfold fetchAttempt
  simp [hst, hct, hbody, hE, hv, respOk, jsTruthyO, hvt, hold]

/-- Concrete witness for claim C6: a stale-but-200 response whose version
token matches the stored `"2.0"`. -/
theorem C6_versionUnchanged_witness :
    (c6Bl.url = some "https://raw.githubusercontent.com/u/p/r.json" ∧
      "https://raw.githubusercontent.com/u/p/r.json" ≠ "Internal" ∧
      isValidBlocklistURL "https://raw.githubusercontent.com/u/p/r.json" = true ∧
      c6Resp.status = 200 ∧ contentTypeOk c6Resp = true ∧
      c6Resp.body = .data c6Data ∧ c6Data.tths = some [] ∧
      versionToken c6Data = some "2.0" ∧ "2.0" ≠ "" ∧
      alookup c6St.blocklistVersions c6Bl.file = some (some "2.0")) ∧
    fetchAndUpdateBlocklist c6Bl [c6Resp] 99 c6St = (false, c6St, 0) :=
  ⟨⟨rfl, by decide, by decide, rfl, by decide, rfl, rfl, rfl, by decide, by decide⟩,
    C6_versionUnchanged_noop c6Bl "https://raw.githubusercontent.com/u/p/r.json"
      c6Resp [] 99 c6St c6Data [] "2.0" rfl (by decide) (by decide) rfl
      (by decide) rfl rfl rfl (by decide) (by decide)⟩

theorem fetchLoop_allThrown (bl : Blocklist) (now : Nat) (st : ExtState) :
    ∀ l : List HttpResponse, l ≠ [] → (∀ r ∈ l, attemptThrows r = true) →
      fetchLoop bl now st l = (false, st, 1)
  | [], hne, _ => absurd rfl hne
  | [r], _, hall => by
      obtain ⟨m, hm⟩ :=
        fetchAttempt_thrown_of_attemptThrows bl now r st (hall r (by simp))
      unfold fetchLoop
      rw [hm]
  | r :: r2 :: rest, _, hall => by
      obtain ⟨m, hm⟩ :=
        fetchAttempt_thrown_of_attemptThrows bl now r st (hall r (by simp))
      unfold fetchLoop
      rw [hm]
      exact fetchLoop_allThrown bl now st (r2 :: rest) (by simp)
        (fun x hx => hall x (List.mem_cons_of_mem r hx))

/-- Claim C8: when every attempt of a scheduled tick fails (HTTP error
status, bad content type, or unparsable body — all before any mutation), the
synchronizer returns `false`, posts exactly one error event, and leaves the
source's in-memory state — per-source set, contribution to the aggregate
set, stored entity tag and version token, and the mirror file — unchanged. -/
theorem C8_retryExhaustion_failSafe (bl : Blocklist) (u : String)
    (responses : List HttpResponse) (now : Nat) (st : ExtState)
    (hu : bl.url = some u) (hui : u ≠ "Internal")
    (huv : isValidBlocklistURL u = true)
    (hne : responses ≠ [])
    (hall : ∀ r ∈ responses, attemptThrows r = true) :
    fetchAndUpdateBlocklist bl responses now st = (false, st, 1) := by
  unfold fetchAndUpdateBlocklist
  rw [if_neg (url_ne_internal bl u hu hui), if_pos (urlOk_of_valid bl u hu huv)]
  exact fetchLoop_allThrown bl now st responses hne hall

/-- Concrete witness for claim C8: three consecutive HTTP 500 attempts leave
the prior per-source state untouched and post one error event. -/
theorem C8_retryExhaustion_witness :
    (c8Bl.url = some "https://raw.githubusercontent.com/u/p/r.json" ∧
      "https://raw.githubusercontent.com/u/p/r.json" ≠ "Internal" ∧
      isValidBlocklistURL "https://raw.githubusercontent.com/u/p/r.json" = true ∧
      ([c8Resp, c8Resp, c8Resp] : List HttpResponse) ≠ [] ∧
      ∀ r ∈ ([c8Resp, c8Resp, c8Resp] : List HttpResponse),
        attemptThrows r = true) ∧
    fetchAndUpdateBlocklist c8Bl [c8Resp, c8Resp, c8Resp] 99 c8St
      = (false, c8St, 1) :=
  ⟨⟨rfl, by decide, by decide, by decide, by decide⟩,
    C8_retryExhaustion_failSafe c8Bl "https://raw.githubusercontent.com/u/p/r.json"
      [c8Resp, c8Resp, c8Resp] 99 c8St rfl (by decide) (by decide) (by decide)
      (by decide)⟩

theorem internalBaseData_entries (st : ExtState) (ts : String) :
    (internalBaseData st ts).tths.getD [] = internalDiskEntries st := by
  unfold internalBaseData internalDiskEntries
  cases h : alookup st.disk internalBlocklistName with
  | none => simp [h, defaultInternalData]
  | some d => simp [h]

theorem addLoop_disk : ∀ (l : List (Option String)) (st : ExtState),
    (addLoop st l).1.disk = st.disk
  | [], _ => rfl
  | none :: rest, st => addLoop_disk rest st
  | some t :: rest, st => by
      unfold addLoop
      by_cases hc : t ≠ "" ∧ t ∉ st.blockedTTHSet
      · rw [if_pos hc]
        exact addLoop_disk rest (addInsert st t)
      · rw [if_neg hc]
        exact addLoop_disk rest st

theorem addLoop_not_added : ∀ (l : List (Option String)) (st : ExtState)
    (t : String), t ∈ st.blockedTTHSet →
      t ∉ (addLoop st l).2 ∧ t ∈ (addLoop st l).1.blockedTTHSet
  | [], st, t, h => ⟨List.not_mem_nil t, h⟩
  | none :: rest, st, t, h => by
      unfold addLoop
      exact addLoop_not_added rest st t h
  | some s :: rest, st, t, h => by
      unfold addLoop
      by_cases hc : s ≠ "" ∧ s ∉ st.blockedTTHSet
      · rw [if_pos hc]
        have hst : s ≠ t := fun he => hc.2 (he ▸ h)
        have ih := addLoop_not_added rest (addInsert st s) t
          (Finset.mem_insert_of_mem h)
        refine ⟨?_, ih.2⟩
        intro hmem
        rcases List.mem_cons.mp hmem with he | hm
        · exact hst he.symm
        · exact ih.1 hm
      · rw [if_neg hc]
        exact addLoop_not_added rest st t h

theorem internalDiskEntries_congr (st1 st2 : ExtState) (h : st1.disk = st2.disk) :
    internalDiskEntries st1 = internalDiskEntries st2 := by
  unfold internalDiskEntries
  rw [h]

/-- Claim C10: the duplicate check of `addToBlocklist` runs against the
global aggregate set, not the writable source's own set or file: an
identifier already contributed by any enabled source is skipped (it never
appears in the returned `addedTTHs`) and is never appended to the writable
source's file, even when that file does not contain it. -/
theorem C10_addToBlocklist_globalDupCheck (settingsOk internalEnabled : Bool)
    (resolved : List (Option String)) (ts : String) (now : Nat)
    (st : ExtState) (t : String)
    (hagg : t ∈ st.blockedTTHSet)
    (hfile : ∀ e ∈ internalDiskEntries st, e.tth ≠ some t) :
    t ∉ (addToBlocklist settingsOk internalEnabled resolved ts now st).2 ∧
    ∀ e ∈ internalDiskEntries
        (addToBlocklist settingsOk internalEnabled resolved ts now st).1,
      e.tth ≠ some t := by
  cases settingsOk with
  | false => exact ⟨List.not_mem_nil t, hfile⟩
  | true =>
      cases internalEnabled with
      | false => exact ⟨List.not_mem_nil t, hfile⟩
      | true =>
          have hloop := addLoop_not_added resolved st t hagg
          have hdisk : (addLoop st resolved).1.disk = st.disk :=
            addLoop_disk resolved st
          have hbase : ∀ e ∈ internalDiskEntries (addLoop st resolved).1,
              e.tth ≠ some t := by
            rw [internalDiskEntries_congr _ _ hdisk]
            exact hfile
          by_cases hemp : (addLoop st resolved).2 = []
          · have hres : addToBlocklist true true resolved ts now st
                = ((addLoop st resolved).1, (addLoop st resolved).2) := by
              unfold addToBlocklist
              simp only [if_pos hemp]
              rfl
            rw [hres]
            exact ⟨fun hm => hloop.1 hm, hbase⟩
          · have hres : addToBlocklist true true resolved ts now st
                = ({ (addLoop st resolved).1 with
                      disk := aset (addLoop st resolved).1.disk
                        internalBlocklistName
                        (internalNewData (addLoop st resolved).1 ts
                          (addLoop st resolved).2),
                      lastUpdateWriteTime :=
                        aset (addLoop st resolved).1.lastUpdateWriteTime
                          internalBlocklistName now },
                    (addLoop st resolved).2) := by
              unfold addToBlocklist
              simp only [if_neg hemp]
              rfl
            rw [hres]
            refine ⟨fun hm => hloop.1 hm, ?_⟩
            intro e he
            have hlook : internalDiskEntries
                ({ (addLoop st resolved).1 with
                    disk := aset (addLoop st resolved).1.disk
                      internalBlocklistName
                      (internalNewData (addLoop st resolved).1 ts
                        (addLoop st resolved).2),
                    lastUpdateWriteTime :=
                      aset (addLoop st resolved).1.lastUpdateWriteTime
                        internalBlocklistName now } : ExtState)
                = internalDiskEntries (addLoop st resolved).1
                  ++ ((addLoop st resolved).2).map (fun s => newEntryFor s ts) := by
              unfold internalDiskEntries
              simp only [alookup_aset_self]
              unfold internalNewData
              simp only [Option.getD_some]
              rw [internalBaseData_entries]
              rfl
            rw [hlook] at he
            rcases List.mem_append.mp he with hb | hn
            · exact hbase e hb
            · rcases List.mem_map.mp hn with ⟨s, hs, hes⟩
              intro hets
              rw [← hes] at hets
              have hst : s = t := Option.some.inj hets
              exact hloop.1 (hst ▸ hs)

/-- Concrete witness for claim C10: resolving `c10TTH` from a context menu
skips it (it lives in the aggregate set via `b.json`) and the writable
source's file still does not contain it afterwards. -/
theorem C10_addToBlocklist_witness :
    (c10TTH ∈ c10St.blockedTTHSet ∧
      ∀ e ∈ internalDiskEntries c10St, e.tth ≠ some c10TTH) ∧
    (c10TTH ∉ (addToBlocklist true true [some c10TTH]
        "2025-01-01T00:00:00Z" 7 c10St).2 ∧
      ∀ e ∈ internalDiskEntries (addToBlocklist true true [some c10TTH]
          "2025-01-01T00:00:00Z" 7 c10St).1,
        e.tth ≠ some c10TTH) :=
  ⟨⟨by decide, by decide⟩,
    C10_addToBlocklist_globalDupCheck true true [some c10TTH]
      "2025-01-01T00:00:00Z" 7 c10St c10TTH (by decide) (by decide)⟩

/-- Claim C1 (refuted — code bug): after loading two enabled sources that
share the identifier `c1TTH`, disabling source `a.json` and reconciling it
deletes `c1TTH` from the aggregate set even though the still-enabled source
`b.json` also contributes it (its per-source set still holds `c1TTH`).  The
resulting aggregate set is empty and differs from the union of the enabled
sources' per-source sets, so `updateSingleBlocklist` does not preserve the
union invariant and does not keep shared identifiers denied: the unload step
deletes every identifier of the reconciled source from the aggregate set
without checking whether another enabled source contributes it too. -/
theorem C1_unionInvariant_violated :
    c1St2.blockedTTHSet = {c1TTH} ∧
    alookup c1St2.blocklistTTHMap "a.json" = some {c1TTH} ∧
    alookup c1St2.blocklistTTHMap "b.json" = some {c1TTH} ∧
    c1Env2.enabled "b.json" = true ∧
    alookup c1St3.blocklistTTHMap "b.json" = some {c1TTH} ∧
    c1TTH ∈ enabledUnion c1St3 c1Env2.enabled ∧
    c1TTH ∉ c1St3.blockedTTHSet ∧
    c1St3.blockedTTHSet ≠ enabledUnion c1St3 c1Env2.enabled := by
  decide

end TTHBlock
